import Mathlib

/-!
Verification of the push-to-talk dictation program (`dictation.py`).

The development shallowly embeds the parts of the program that the
stated properties are about:

* `close_stream_with_timeout` — the bounded-time stream close with
  leak accounting and forced shutdown (source lines 235-325);
* `type_text` — the output injector with its physical-key poll loop
  (source lines 700-759), driven by an oracle `TypeTextEnv` supplying
  the hardware key state at each poll and the injection subprocess
  outcome;
* `try_type_pending_chunks` — the in-order flush loop local to the
  state-machine thread (source lines 374-404);
* `state_manager_step` — one iteration of the state-machine loop for a
  single command (source lines 408-583), with the nondeterministic
  outcomes of the audio backend supplied by a `StepEnv` oracle;
* `transcribe_recorded_audio` / `transcribe_attempt_loop` — the
  transcription routine with its deadline computation and retry loop
  (source lines 591-698); the recognizer itself is opaque, so each
  attempt's outcome (result, timeout, or error) is an oracle;
* `do_transcription` — the wrapper thread body that posts `CHUNK_DONE`
  back to the command queue (source lines 544-551).

Effect-only code (logging, menu-bar updates, WAV file writing, sleeps)
is elided; user-visible notifications, recognizer submissions, lock
release and process termination are recorded as counters/flags in the
result structures so that properties about them can be stated.
-/

namespace Dictation

/-- Source line 165: audio sample rate in Hz. -/
def SAMPLE_RATE : Nat := 16000

/-- Source line 169: fixed floor of the transcription deadline, seconds. -/
def TRANSCRIPTION_TIMEOUT : Nat := 120

/-- Source line 171: number of retries for failed transcriptions. -/
def MAX_TRANSCRIPTION_RETRIES : Nat := 2

/-- Source line 174: forced-restart threshold for leaked streams. -/
def MAX_ABANDONED_STREAMS : Nat := 10

/-- Source line 725: `max_wait_iterations` local of `type_text`. -/
def max_wait_iterations : Nat := 20

/-! ### Bounded-time stream close (source lines 235-325) -/

/-- Observable outcome of one `close_stream_with_timeout` call: the boolean
the function returns, the new value of the `abandoned_streams` counter, and
which user-visible actions fired (warning notification at 5 leaks, shutdown
notification / lock release / `rumps.quit_application` at the threshold). -/
structure CloseRes where
  returnedTrue : Bool
  abandoned : Nat
  warnNotif : Bool
  shutdownNotif : Bool
  lockReleased : Bool
  quitCalled : Bool
deriving Repr, DecidableEq

/-- `close_stream_with_timeout` (source lines 235-325).  The argument
`closeCompletesInTime` is the oracle for `close_done.wait(timeout)`:
`true` when the backend `close()` returned within the bound, `false` when
it deadlocked.  `abandoned0` is the value of the global
`abandoned_streams` counter before the call. -/
def close_stream_with_timeout (closeCompletesInTime : Bool) (abandoned0 : Nat) : CloseRes :=
  if closeCompletesInTime then
    { returnedTrue := true, abandoned := abandoned0, warnNotif := false,
      shutdownNotif := false, lockReleased := false, quitCalled := false }
  else
    { returnedTrue := false, abandoned := abandoned0 + 1,
      warnNotif := decide (abandoned0 + 1 = 5),
      shutdownNotif := decide (MAX_ABANDONED_STREAMS ≤ abandoned0 + 1),
      lockReleased := decide (MAX_ABANDONED_STREAMS ≤ abandoned0 + 1),
      quitCalled := decide (MAX_ABANDONED_STREAMS ≤ abandoned0 + 1) }

/-- Result of skipping the close call (the `if audio_stream:` guard is
false): counter untouched, nothing fires. -/
def closeSkipped (abandoned0 : Nat) : CloseRes :=
  { returnedTrue := true, abandoned := abandoned0, warnNotif := false,
    shutdownNotif := false, lockReleased := false, quitCalled := false }

/-! ### Output injector `type_text` (source lines 700-759) -/

/-- Oracle for one `type_text` call: `heldAtPoll i` is what
`is_command_physically_held()` returns at poll iteration `i`, and
`osReturncodeZero` is whether the `osascript` subprocess exits with
return code 0. -/
structure TypeTextEnv where
  heldAtPoll : Nat → Bool
  osReturncodeZero : Bool

/-- Observable outcome of one `type_text` call: the boolean returned,
whether the `osascript` injection subprocess was launched, whether the
`typing_in_progress` flag was ever set during the call (it is always
cleared again in the `finally` block), and how many physical-key polls
were made. -/
structure TypeTextResult where
  success : Bool
  osCalled : Bool
  flagWasSet : Bool
  polls : Nat
deriving Repr, DecidableEq

/-- The poll loop of `type_text` (source lines 726-731): starting at
iteration `i` with `n` iterations left, return the first iteration index
at which the key is observed released, or `none` if it stayed held for
all remaining iterations. -/
def firstReleaseFrom (held : Nat → Bool) : Nat → Nat → Option Nat
  | 0, _ => none
  | n + 1, i => if held i then firstReleaseFrom held n (i + 1) else some i

/-- `type_text` (source lines 700-759).  Empty text returns success at
once with no poll and no subprocess.  Otherwise the key is polled up to
`max_wait_iterations` times; if it stays held the call returns `False`
without injecting and without touching `typing_in_progress`; if the key
is seen released the flag is set, the subprocess runs, and the returned
boolean is the subprocess's success. -/
def type_text (env : TypeTextEnv) (text : String) : TypeTextResult :=
  if text = "" then
    { success := true, osCalled := false, flagWasSet := false, polls := 0 }
  else
    match firstReleaseFrom env.heldAtPoll max_wait_iterations 0 with
    | none =>
        { success := false, osCalled := false, flagWasSet := false,
          polls := max_wait_iterations }
    | some i =>
        { success := env.osReturncodeZero, osCalled := true, flagWasSet := true,
          polls := i + 1 }

/-! ### In-order flush `try_type_pending_chunks` (source lines 374-404) -/

/-- Observable actions of the state machine: a chunk's text leaving
`pending_chunks` through the flush loop (`osCalled` records whether an
actual `type_text` injection subprocess ran, which is skipped for empty
text), and a finalized recording being handed to the transcription
thread. -/
inductive Event where
  | flushed (id : Nat) (text : String) (osCalled : Bool)
  | dispatched (id : Nat) (samples : Nat)
deriving Repr, DecidableEq

/-- `pending_chunks[i]` dictionary lookup. -/
def pcLookup : List (Nat × String) → Nat → Option String
  | [], _ => none
  | (k, v) :: rest, i => if k = i then some v else pcLookup rest i

/-- `del pending_chunks[i]` dictionary deletion. -/
def pcErase (m : List (Nat × String)) (k : Nat) : List (Nat × String) :=
  m.filter (fun p => p.1 != k)

/-- `pending_chunks[i] = text` dictionary assignment (overwrites). -/
def pcInsert (m : List (Nat × String)) (k : Nat) (v : String) : List (Nat × String) :=
  (k, v) :: m.filter (fun p => p.1 != k)

/-- Result of one run of the flush loop: the new `next_chunk_to_type`,
the remaining `pending_chunks`, the flush events in order, and the
`made_progress` return value. -/
structure FlushRes where
  nextChunkToType : Nat
  pendingChunks : List (Nat × String)
  events : List Event
  madeProgress : Bool
deriving Repr, DecidableEq

/-- `try_type_pending_chunks` (source lines 374-404).  The `while`
loop is given as fuel the size of `pending_chunks` (each iteration that
continues deletes one entry, so this fuel is never exhausted before the
loop condition fails).  `inj i` is the injection oracle used if
`type_text` is called for chunk `i` during this run. -/
def try_type_pending_chunks (inj : Nat → TypeTextEnv) :
    Nat → Nat → List (Nat × String) → Bool → FlushRes
  | 0, next, pending, progress =>
      { nextChunkToType := next, pendingChunks := pending, events := [],
        madeProgress := progress }
  | fuel + 1, next, pending, progress =>
      match pcLookup pending next with
      | none =>
          { nextChunkToType := next, pendingChunks := pending, events := [],
            madeProgress := progress }
      | some t =>
          if t = "" then
            -- empty chunk: skip and advance with no type_text call
            let r := try_type_pending_chunks inj fuel (next + 1) (pcErase pending next) true
            { r with events := Event.flushed next "" false :: r.events }
          else if (type_text (inj next) t).success then
            let r := try_type_pending_chunks inj fuel (next + 1) (pcErase pending next) true
            { r with events := Event.flushed next t true :: r.events }
          else
            -- type_text returned False: stop, keep the chunk queued
            { nextChunkToType := next, pendingChunks := pending, events := [],
              madeProgress := progress }

/-! ### State machine (source lines 348-589) -/

/-- Commands drained from `command_queue` by the state-machine thread. -/
inductive Command where
  | commandDown
  | commandUp
  | chunkDone (id : Nat) (text : String)
deriving Repr, DecidableEq

/-- Oracle for the stream creation attempt on `COMMAND_DOWN`:
`ok` — `create_done.wait(2.0)` returned true with no error;
`raised` — the creation thread recorded an exception (re-raised and
caught at source line 502);
`timeout late lateOk` — the wait timed out; `late` tells whether the
stream object had nevertheless been created (and is then closed through
`close_stream_with_timeout`, whose own completion is `lateOk`). -/
inductive CreateOutcome where
  | ok
  | raised
  | timeout (lateStreamCreated : Bool) (lateCloseCompletes : Bool)

/-- Oracle for one state-machine step: the creation outcome (used by
`COMMAND_DOWN`), whether a stream close completes in time (used by
`COMMAND_UP`), the number of audio samples captured (used by
`COMMAND_UP`), and the injection oracle for each chunk id flushed
during the step. -/
structure StepEnv where
  create : CreateOutcome
  closeCompletes : Bool
  samples : Nat
  inj : Nat → TypeTextEnv

/-- The mutable state of the `state_manager` thread (source lines
360-372) together with the process-wide counters it touches
(`creation_failures`, `abandoned_streams`) and a flag recording that
`rumps.quit_application` was requested. -/
structure SMState where
  isRecording : Bool
  currentChunkId : Option Nat
  nextChunkToRecord : Nat
  nextChunkToType : Nat
  pendingChunks : List (Nat × String)
  creationFailures : Nat
  abandonedStreams : Nat
  audioStream : Bool
  terminated : Bool
deriving Repr, DecidableEq

/-- Initial state of the state-machine thread. -/
def smInit : SMState :=
  { isRecording := false, currentChunkId := none, nextChunkToRecord := 0,
    nextChunkToType := 0, pendingChunks := [], creationFailures := 0,
    abandonedStreams := 0, audioStream := false, terminated := false }

/-- One iteration of the `state_manager` loop (source lines 408-583)
handling a single command.  Returns the successor state and the
observable events of the step. -/
def state_manager_step (env : StepEnv) (s : SMState) (c : Command) :
    SMState × List Event :=
  match c with
  | .commandDown =>
      if s.isRecording then (s, [])
      else
        -- lines 420-422: allocate the chunk id before attempting creation
        let id := s.nextChunkToRecord
        let s1 := { s with isRecording := true, currentChunkId := some id,
                           nextChunkToRecord := id + 1 }
        match env.create with
        | .ok =>
            -- lines 460-469: success resets creation_failures
            ({ s1 with audioStream := true, creationFailures := 0 }, [])
        | .raised =>
            -- lines 502-506: exception handler rolls back is_recording only
            ({ s1 with isRecording := false, audioStream := false }, [])
        | .timeout late lateOk =>
            -- lines 470-500: wait timed out
            let cres := if late then close_stream_with_timeout lateOk s1.abandonedStreams
                        else closeSkipped s1.abandonedStreams
            let cf := s1.creationFailures + 1
            ({ s1 with isRecording := false, audioStream := false,
                       creationFailures := cf,
                       abandonedStreams := cres.abandoned,
                       terminated := s1.terminated || cres.quitCalled || decide (3 ≤ cf) },
             [])
  | .commandUp =>
      if s.isRecording then
        -- lines 510-553: finalize the chunk, close the stream, dispatch
        let cid := s.currentChunkId.getD 0
        let cres := if s.audioStream then
                      close_stream_with_timeout env.closeCompletes s.abandonedStreams
                    else closeSkipped s.abandonedStreams
        ({ s with isRecording := false, currentChunkId := none,
                  audioStream := false, abandonedStreams := cres.abandoned,
                  terminated := s.terminated || cres.quitCalled },
         [Event.dispatched cid env.samples])
      else if s.pendingChunks.isEmpty then (s, [])
      else
        -- lines 555-561: released with chunks still queued - retry flush
        let r := try_type_pending_chunks env.inj s.pendingChunks.length
                   s.nextChunkToType s.pendingChunks false
        ({ s with nextChunkToType := r.nextChunkToType,
                  pendingChunks := r.pendingChunks }, r.events)
  | .chunkDone id text =>
      -- lines 563-583
      let pend := pcInsert s.pendingChunks id text
      if s.isRecording then
        ({ s with pendingChunks := pend }, [])
      else
        let r := try_type_pending_chunks env.inj pend.length s.nextChunkToType pend false
        ({ s with nextChunkToType := r.nextChunkToType,
                  pendingChunks := r.pendingChunks }, r.events)

/-- The `except` handler of the state-machine loop (source lines
585-589): reset the recording flags, preserve everything else. -/
def state_manager_on_error (s : SMState) : SMState :=
  { s with isRecording := false, currentChunkId := none }

/-- Run the state machine over a list of (oracle, command) pairs from a
given state.  Once `rumps.quit_application` has been requested the
process is taken as dead: remaining commands are not processed. -/
def smRunFrom (s : SMState) : List (StepEnv × Command) → SMState × List Event
  | [] => (s, [])
  | ec :: rest =>
      if s.terminated then smRunFrom s rest
      else
        let p := state_manager_step ec.1 s ec.2
        let q := smRunFrom p.1 rest
        (q.1, p.2 ++ q.2)

/-- Run the state machine from its initial state. -/
def smRun (tr : List (StepEnv × Command)) : SMState × List Event :=
  smRunFrom smInit tr

/-- Project an event trace to the injected `(id, text)` pairs (empty
chunks count as injected no-ops, as in the spec). -/
def injectedPairs (evs : List Event) : List (Nat × String) :=
  evs.filterMap fun e =>
    match e with
    | .flushed i t _ => some (i, t)
    | _ => none

/-! ### Transcription (source lines 591-698) -/

/-- Oracle for one recognizer attempt inside the retry loop:
`ok raw` — `future.result` returned with raw text `raw`;
`timeout` — `future.result` raised `FuturesTimeoutError`;
`err` — the attempt raised some other exception. -/
inductive AttemptOutcome where
  | ok (raw : String)
  | timeout
  | err
deriving Repr, DecidableEq

/-- Observable outcome of the retry loop (source lines 628-677): the
text returned, the number of recognizer submissions made, and the
numbers of timeout / final-failure notifications raised. -/
structure LoopRes where
  text : String
  calls : Nat
  timeoutNotifs : Nat
  failNotifs : Nat
deriving Repr, DecidableEq

/-- The retry loop of `transcribe_recorded_audio` (source lines
628-677), at iteration `attempt` of
`range(MAX_TRANSCRIPTION_RETRIES + 1)` with `retriesLeft =
MAX_TRANSCRIPTION_RETRIES - attempt` further iterations available (the
loop guard `attempt < MAX_TRANSCRIPTION_RETRIES` is `0 < retriesLeft`).
A successful attempt returns the stripped text; a timeout returns empty
text with one notification and no retry; any other error retries while
attempts remain, else returns empty text with one failure
notification. -/
def transcribe_attempt_loop (att : Nat → AttemptOutcome) :
    Nat → Nat → LoopRes
  | attempt, 0 =>
      (match att attempt with
        | .ok raw => { text := raw.trim, calls := 1, timeoutNotifs := 0, failNotifs := 0 }
        | .timeout => { text := "", calls := 1, timeoutNotifs := 1, failNotifs := 0 }
        | .err => { text := "", calls := 1, timeoutNotifs := 0, failNotifs := 1 })
  | attempt, retriesLeft + 1 =>
      (match att attempt with
        | .ok raw => { text := raw.trim, calls := 1, timeoutNotifs := 0, failNotifs := 0 }
        | .timeout => { text := "", calls := 1, timeoutNotifs := 1, failNotifs := 0 }
        | .err =>
            let r := transcribe_attempt_loop att (attempt + 1) retriesLeft
            { r with calls := r.calls + 1 })

/-- Source line 606: `duration_seconds = len(audio) / SAMPLE_RATE`,
exact rational arithmetic in place of the float. -/
def duration_seconds (samples : Nat) : ℚ :=
  (samples : ℚ) / (SAMPLE_RATE : ℚ)

/-- Source line 622:
`timeout_seconds = max(TRANSCRIPTION_TIMEOUT, int(duration_seconds * 2))`.
Python's `int()` truncates; the duration is nonnegative so this is the
floor. -/
def timeout_seconds (samples : Nat) : ℤ :=
  max (TRANSCRIPTION_TIMEOUT : ℤ) ⌊2 * duration_seconds samples⌋

/-- Observable outcome of `transcribe_recorded_audio`: the text
returned, the number of recognizer submissions, the notification
counts, and the deadline computed for the buffer (0 when the routine
returns before computing it). -/
structure TranscribeRes where
  text : String
  recognizerCalls : Nat
  timeoutNotifs : Nat
  failNotifs : Nat
  deadline : ℤ
deriving Repr, DecidableEq

/-- `transcribe_recorded_audio` (source lines 591-698).  `samples` is
the total number of captured audio samples; the zero-sample case is the
`len(audio_chunks) == 0` early return at lines 598-600 (driver
callbacks only ever append nonempty blocks, so the buffer list is empty
exactly when no samples were captured).  File I/O is effect-only and
elided; attempt outcomes come from the oracle `att`. -/
def transcribe_recorded_audio (att : Nat → AttemptOutcome) (samples : Nat) :
    TranscribeRes :=
  if samples = 0 then
    { text := "", recognizerCalls := 0, timeoutNotifs := 0, failNotifs := 0,
      deadline := 0 }
  else
    let r := transcribe_attempt_loop att 0 MAX_TRANSCRIPTION_RETRIES
    { text := r.text, recognizerCalls := r.calls, timeoutNotifs := r.timeoutNotifs,
      failNotifs := r.failNotifs, deadline := timeout_seconds samples }

/-- The transcription thread body `do_transcription` (source lines
544-551): posts exactly one `CHUNK_DONE` back onto the command queue,
with empty text when anything raised. -/
def do_transcription (att : Nat → AttemptOutcome) (samples cid : Nat)
    (raised : Bool) : List Command :=
  if raised then [Command.chunkDone cid ""]
  else [Command.chunkDone cid (transcribe_recorded_audio att samples).text]

/-- Modelled from the spec (§4.3): "Deadline = `max(fixedFloor, 2 ×
audioDurationSeconds)`", read as exact arithmetic.  Used only to
compare the spec's formula with the code's `timeout_seconds`. -/
def spec_deadline (samples : Nat) : ℚ :=
  max (TRANSCRIPTION_TIMEOUT : ℚ) (2 * duration_seconds samples)

/-! ### Helper lemmas about the pending-chunks dictionary -/

theorem pcLookup_mem {m : List (Nat × String)} {k : Nat} {v : String}
    (h : pcLookup m k = some v) : (k, v) ∈ m := by
  induction m with
  | nil => simp [pcLookup] at h
  | cons p rest ih =>
      obtain ⟨a, b⟩ := p
      by_cases hak : a = k
      · subst hak
        simp [pcLookup] at h
        simp [h]
      · simp [pcLookup, hak] at h
        exact List.mem_cons_of_mem _ (ih h)

theorem pcErase_subset {m : List (Nat × String)} {k : Nat} {q : Nat × String}
    (h : q ∈ pcErase m k) : q ∈ m :=
  (List.mem_filter.mp h).1

theorem pcInsert_mem {m : List (Nat × String)} {k : Nat} {v : String} {q : Nat × String}
    (h : q ∈ pcInsert m k v) : q ∈ m ∨ q = (k, v) := by
  rcases List.mem_cons.mp h with h | h
  · exact Or.inr h
  · exact Or.inl (List.mem_filter.mp h).1

/-! ### Invariants of the flush loop -/

/-- What the flush loop guarantees: events carry consecutive chunk ids
starting at the entry `next_chunk_to_type`; the counter advances by the
number of flushed chunks; every flushed pair was present in
`pending_chunks`; the surviving pending entries were already there. -/
def FlushSpec (next : Nat) (pending : List (Nat × String)) (r : FlushRes) : Prop :=
  (injectedPairs r.events).map Prod.fst =
    List.range' next (injectedPairs r.events).length ∧
  r.nextChunkToType = next + (injectedPairs r.events).length ∧
  (∀ q ∈ injectedPairs r.events, q ∈ pending) ∧
  (∀ q ∈ r.pendingChunks, q ∈ pending)

/-- When the flush loop finds a non-empty chunk at `next_chunk_to_type`
and `type_text` returns `False` for it (deferral or OS-level injection
failure alike), the loop stops with everything unchanged: the entry
stays queued and the counter does not advance. -/
theorem flush_break (inj : Nat → TypeTextEnv) (fuel next : Nat)
    (pending : List (Nat × String)) (progress : Bool) (t : String)
    (hl : pcLookup pending next = some t) (ht : t ≠ "")
    (hf : (type_text (inj next) t).success = false) :
    try_type_pending_chunks inj (fuel + 1) next pending progress =
      { nextChunkToType := next, pendingChunks := pending, events := [],
        madeProgress := progress } := by
  rw [try_type_pending_chunks, hl]
  simp [ht, hf]

/-- Unfolding equation: loop stops when `next` is not pending. -/
theorem flush_eq_none (inj : Nat → TypeTextEnv) (fuel next : Nat)
    (pending : List (Nat × String)) (progress : Bool)
    (hl : pcLookup pending next = none) :
    try_type_pending_chunks inj (fuel + 1) next pending progress =
      { nextChunkToType := next, pendingChunks := pending, events := [],
        madeProgress := progress } := by
  rw [try_type_pending_chunks, hl]

/-- Unfolding equation: an empty chunk is skipped and the loop continues. -/
theorem flush_eq_empty (inj : Nat → TypeTextEnv) (fuel next : Nat)
    (pending : List (Nat × String)) (progress : Bool)
    (hl : pcLookup pending next = some "") :
    try_type_pending_chunks inj (fuel + 1) next pending progress =
      { try_type_pending_chunks inj fuel (next + 1) (pcErase pending next) true with
        events := Event.flushed next "" false ::
          (try_type_pending_chunks inj fuel (next + 1) (pcErase pending next) true).events } := by
  rw [try_type_pending_chunks, hl]
  rfl

/-- Unfolding equation: a non-empty chunk whose injection succeeds is
removed and the loop continues. -/
theorem flush_eq_typed (inj : Nat → TypeTextEnv) (fuel next : Nat)
    (pending : List (Nat × String)) (progress : Bool) (t : String)
    (hl : pcLookup pending next = some t) (ht : t ≠ "")
    (hs : (type_text (inj next) t).success = true) :
    try_type_pending_chunks inj (fuel + 1) next pending progress =
      { try_type_pending_chunks inj fuel (next + 1) (pcErase pending next) true with
        events := Event.flushed next t true ::
          (try_type_pending_chunks inj fuel (next + 1) (pcErase pending next) true).events } := by
  rw [try_type_pending_chunks, hl]
  simp [ht, hs]

theorem flush_spec (inj : Nat → TypeTextEnv) :
    ∀ fuel next pending progress,
      FlushSpec next pending (try_type_pending_chunks inj fuel next pending progress) := by
  intro fuel
  induction fuel with
  | zero =>
      intro next pending progress
      refine ⟨?_, ?_, ?_, ?_⟩ <;>
        simp [try_type_pending_chunks, injectedPairs]
  | succ fuel ih =>
      intro next pending progress
      cases hl : pcLookup pending next with
      | none =>
          rw [flush_eq_none inj fuel next pending progress hl]
          refine ⟨?_, ?_, ?_, ?_⟩ <;> simp [injectedPairs]
      | some t =>
          by_cases ht : t = ""
          · subst ht
            rw [flush_eq_empty inj fuel next pending progress hl]
            obtain ⟨ih1, ih2, ih3, ih4⟩ := ih (next + 1) (pcErase pending next) true
            refine ⟨?_, ?_, ?_, ?_⟩
            · simp only [injectedPairs, List.filterMap_cons] at ih1 ⊢
              simp only [List.map_cons, List.length_cons, List.range'_succ, ih1]
            · simp only [injectedPairs, List.filterMap_cons] at ih2 ⊢
              simp only [List.length_cons, ih2]
              omega
            · intro q hq
              simp only [injectedPairs, List.filterMap_cons] at hq
              rcases List.mem_cons.mp hq with h | h
              · subst h; exact pcLookup_mem hl
              · exact pcErase_subset (ih3 q h)
            · intro q hq
              simp only at hq
              exact pcErase_subset (ih4 q hq)
          · by_cases hs : (type_text (inj next) t).success
            · rw [flush_eq_typed inj fuel next pending progress t hl ht hs]
              obtain ⟨ih1, ih2, ih3, ih4⟩ := ih (next + 1) (pcErase pending next) true
              refine ⟨?_, ?_, ?_, ?_⟩
              · simp only [injectedPairs, List.filterMap_cons] at ih1 ⊢
                simp only [List.map_cons, List.length_cons, List.range'_succ, ih1]
              · simp only [injectedPairs, List.filterMap_cons] at ih2 ⊢
                simp only [List.length_cons, ih2]
                omega
              · intro q hq
                simp only [injectedPairs, List.filterMap_cons] at hq
                rcases List.mem_cons.mp hq with h | h
                · subst h; exact pcLookup_mem hl
                · exact pcErase_subset (ih3 q h)
              · intro q hq
                simp only at hq
                exact pcErase_subset (ih4 q hq)
            · rw [flush_break inj fuel next pending progress t hl ht
                    (Bool.eq_false_iff.mpr hs)]
              refine ⟨?_, ?_, ?_, ?_⟩ <;> simp [injectedPairs]

/-! ### Invariants of a single state-machine step and of whole runs -/

/-- What one step guarantees: the injections it performs carry
consecutive ids starting at the entry `next_chunk_to_type`, the counter
advances by exactly the number of injections, and every injected or
still-pending pair either was already pending or is the payload of the
`CHUNK_DONE` command just processed. -/
def StepSpec (s : SMState) (c : Command) (p : SMState × List Event) : Prop :=
  (injectedPairs p.2).map Prod.fst =
    List.range' s.nextChunkToType (injectedPairs p.2).length ∧
  p.1.nextChunkToType = s.nextChunkToType + (injectedPairs p.2).length ∧
  (∀ q ∈ injectedPairs p.2,
    q ∈ s.pendingChunks ∨ c = Command.chunkDone q.1 q.2) ∧
  (∀ q ∈ p.1.pendingChunks,
    q ∈ s.pendingChunks ∨ c = Command.chunkDone q.1 q.2)

theorem step_spec (env : StepEnv) (s : SMState) (c : Command) :
    StepSpec s c (state_manager_step env s c) := by
  cases c with
  | commandDown =>
      by_cases hr : s.isRecording
      · refine ⟨?_, ?_, ?_, ?_⟩ <;> simp [state_manager_step, hr, injectedPairs]
      · cases hc : env.create <;>
          refine ⟨?_, ?_, ?_, ?_⟩ <;>
            simp [state_manager_step, hr, hc, injectedPairs]
  | commandUp =>
      by_cases hr : s.isRecording
      · refine ⟨?_, ?_, ?_, ?_⟩ <;> simp [state_manager_step, hr, injectedPairs]
      · by_cases hp : s.pendingChunks.isEmpty
        · refine ⟨?_, ?_, ?_, ?_⟩ <;> simp [state_manager_step, hr, hp, injectedPairs]
        · obtain ⟨f1, f2, f3, f4⟩ :=
            flush_spec env.inj s.pendingChunks.length s.nextChunkToType s.pendingChunks false
          refine ⟨?_, ?_, ?_, ?_⟩ <;>
            simp only [state_manager_step, hr, hp, if_neg, if_false,
              Bool.false_eq_true, ite_false]
          · exact f1
          · exact f2
          · intro q hq; exact Or.inl (f3 q hq)
          · intro q hq; exact Or.inl (f4 q hq)
  | chunkDone id text =>
      by_cases hr : s.isRecording
      · have hstep : state_manager_step env s (Command.chunkDone id text) =
            ({ s with pendingChunks := pcInsert s.pendingChunks id text }, []) := by
          simp [state_manager_step, hr]
        rw [hstep]
        refine ⟨by simp [injectedPairs], by simp [injectedPairs],
          by simp [injectedPairs], ?_⟩
        intro q hq
        rcases pcInsert_mem hq with h | h
        · exact Or.inl h
        · exact Or.inr (by rw [h])
      · obtain ⟨f1, f2, f3, f4⟩ :=
          flush_spec env.inj (pcInsert s.pendingChunks id text).length
            s.nextChunkToType (pcInsert s.pendingChunks id text) false
        refine ⟨?_, ?_, ?_, ?_⟩ <;>
          simp only [state_manager_step, hr, Bool.false_eq_true, ite_false]
        · exact f1
        · exact f2
        · intro q hq
          rcases pcInsert_mem (f3 q hq) with h | h
          · exact Or.inl h
          · exact Or.inr (by rw [h])
        · intro q hq
          rcases pcInsert_mem (f4 q hq) with h | h
          · exact Or.inl h
          · exact Or.inr (by rw [h])

theorem run_spec :
    ∀ (tr : List (StepEnv × Command)) (s : SMState),
      ((injectedPairs (smRunFrom s tr).2).map Prod.fst =
        List.range' s.nextChunkToType (injectedPairs (smRunFrom s tr).2).length) ∧
      ((smRunFrom s tr).1.nextChunkToType =
        s.nextChunkToType + (injectedPairs (smRunFrom s tr).2).length) ∧
      (∀ q ∈ injectedPairs (smRunFrom s tr).2,
        q ∈ s.pendingChunks ∨ Command.chunkDone q.1 q.2 ∈ tr.map Prod.snd) ∧
      (∀ q ∈ (smRunFrom s tr).1.pendingChunks,
        q ∈ s.pendingChunks ∨ Command.chunkDone q.1 q.2 ∈ tr.map Prod.snd) := by
  intro tr
  induction tr with
  | nil =>
      intro s
      refine ⟨?_, ?_, ?_, ?_⟩ <;> simp [smRunFrom, injectedPairs]
  | cons ec rest ih =>
      intro s
      by_cases hterm : s.terminated
      · obtain ⟨ih1, ih2, ih3, ih4⟩ := ih s
        refine ⟨?_, ?_, ?_, ?_⟩ <;>
          simp only [smRunFrom, hterm, if_true, ite_true, List.map_cons]
        · exact ih1
        · exact ih2
        · intro q hq
          rcases ih3 q hq with h | h
          · exact Or.inl h
          · exact Or.inr (List.mem_cons_of_mem _ h)
        · intro q hq
          rcases ih4 q hq with h | h
          · exact Or.inl h
          · exact Or.inr (List.mem_cons_of_mem _ h)
      · obtain ⟨s1, h1, h2, h3, h4⟩ :
          ∃ p, StepSpec s ec.2 p ∧ p = state_manager_step ec.1 s ec.2 ∧ True ∧ True :=
          ⟨state_manager_step ec.1 s ec.2, step_spec ec.1 s ec.2, rfl, trivial, trivial⟩
        obtain ⟨ih1, ih2, ih3, ih4⟩ := ih s1.1
        obtain ⟨p1, p2, p3, p4⟩ := h1
        have hrun : smRunFrom s (ec :: rest) =
            ((smRunFrom s1.1 rest).1, s1.2 ++ (smRunFrom s1.1 rest).2) := by
          simp only [smRunFrom, hterm, ite_false, Bool.false_eq_true, ← h2]
        rw [hrun]
        have happ : injectedPairs (s1.2 ++ (smRunFrom s1.1 rest).2) =
            injectedPairs s1.2 ++ injectedPairs (smRunFrom s1.1 rest).2 := by
          simp [injectedPairs]
        refine ⟨?_, ?_, ?_, ?_⟩
        · rw [happ, List.map_append, List.length_append, p1, ih1, p2]
          rw [Nat.add_comm (injectedPairs s1.2).length
            (injectedPairs (smRunFrom s1.1 rest).2).length]
          exact List.range'_append_1 _ _ _
        · rw [happ, List.length_append, ih2, p2]
          omega
        · rw [happ]
          intro q hq
          rcases List.mem_append.mp hq with h | h
          · rcases p3 q h with h' | h'
            · exact Or.inl h'
            · exact Or.inr (by simp [← h'])
          · rcases ih3 q h with h' | h'
            · rcases p4 q h' with h'' | h''
              · exact Or.inl h''
              · exact Or.inr (by simp [← h''])
            · exact Or.inr (by simp [h'])
        · intro q hq
          rcases ih4 q hq with h' | h'
          · rcases p4 q h' with h'' | h''
            · exact Or.inl h''
            · exact Or.inr (by simp [← h''])
          · exact Or.inr (by simp [h'])

/-! ### Helper lemmas about the injector's poll loop -/

theorem firstReleaseFrom_eq_none (held : Nat → Bool) :
    ∀ n i, (∀ j, i ≤ j → j < i + n → held j = true) →
      firstReleaseFrom held n i = none := by
  intro n
  induction n with
  | zero => intro i _; rfl
  | succ n ih =>
      intro i h
      have hi : held i = true := h i le_rfl (by omega)
      simp only [firstReleaseFrom, hi, if_true, ite_true]
      exact ih (i + 1) (fun j h1 h2 => h j (by omega) (by omega))

theorem firstReleaseFrom_le (held : Nat → Bool) :
    ∀ n i j, firstReleaseFrom held n i = some j → j + 1 ≤ i + n := by
  intro n
  induction n with
  | zero => intro i j h; simp [firstReleaseFrom] at h
  | succ n ih =>
      intro i j h
      by_cases hi : held i = true
      · simp only [firstReleaseFrom, hi, if_true, ite_true] at h
        have := ih (i + 1) j h
        omega
      · simp only [firstReleaseFrom, hi, if_false, Bool.false_eq_true, ite_false,
          Option.some.injEq] at h
        omega

/-- `type_text` makes at most `max_wait_iterations` physical-key polls. -/
theorem type_text_polls_le (env : TypeTextEnv) (text : String) :
    (type_text env text).polls ≤ max_wait_iterations := by
  unfold type_text
  by_cases h : text = ""
  · simp [h, max_wait_iterations]
  · simp only [h, if_false, ite_false]
    cases hf : firstReleaseFrom env.heldAtPoll max_wait_iterations 0 with
    | none => simp
    | some i =>
        have := firstReleaseFrom_le env.heldAtPoll max_wait_iterations 0 i hf
        simp only []
        omega

/-- If the key stays physically held for every poll, `type_text` defers:
it returns `False` after exactly `max_wait_iterations` polls, launches no
injection subprocess, and never sets `typing_in_progress`. -/
theorem type_text_deferred (env : TypeTextEnv) (text : String) (htext : text ≠ "")
    (hheld : ∀ i, i < max_wait_iterations → env.heldAtPoll i = true) :
    type_text env text =
      { success := false, osCalled := false, flagWasSet := false,
        polls := max_wait_iterations } := by
  have h0 : firstReleaseFrom env.heldAtPoll max_wait_iterations 0 = none :=
    firstReleaseFrom_eq_none env.heldAtPoll max_wait_iterations 0
      (fun j _ h2 => hheld j (by omega))
  simp [type_text, htext, h0]

/-! ### Helper lemma about the transcription retry loop -/

/-- If the first `k` attempts (starting at `attempt`) raise transient
errors and attempt `attempt + k` times out, the loop stops right there:
`k + 1` recognizer calls in total, empty text, exactly one timeout
notification and no failure notification. -/
theorem attempt_loop_timeout (att : Nat → AttemptOutcome) :
    ∀ k attempt retriesLeft, k ≤ retriesLeft →
      (∀ j, attempt ≤ j → j < attempt + k → att j = AttemptOutcome.err) →
      att (attempt + k) = AttemptOutcome.timeout →
      transcribe_attempt_loop att attempt retriesLeft =
        { text := "", calls := k + 1, timeoutNotifs := 1, failNotifs := 0 } := by
  intro k
  induction k with
  | zero =>
      intro attempt retriesLeft _ _ ht
      rw [Nat.add_zero] at ht
      cases retriesLeft <;> simp [transcribe_attempt_loop, ht]
  | succ k ih =>
      intro attempt retriesLeft hk herr ht
      obtain ⟨left, rfl⟩ : ∃ left, retriesLeft = left + 1 :=
        ⟨retriesLeft - 1, by omega⟩
      have he : att attempt = AttemptOutcome.err := herr attempt le_rfl (by omega)
      have hrec := ih (attempt + 1) left (by omega)
        (fun j h1 h2 => herr j (by omega) (by omega))
        (by rw [show attempt + 1 + k = attempt + (k + 1) from by omega]; exact ht)
      simp [transcribe_attempt_loop, he, hrec]

/-! ### Helper lemma about the deadline computation -/

/-- The code's deadline, in closed form over the sample count:
`max(120, ⌊samples / 8000⌋)` — i.e. the doubled duration truncated to
whole seconds. -/
theorem timeout_seconds_eq (samples : Nat) :
    timeout_seconds samples =
      max (TRANSCRIPTION_TIMEOUT : ℤ) ((samples / 8000 : ℕ) : ℤ) := by
  unfold timeout_seconds duration_seconds SAMPLE_RATE
  congr 1
  have h1 : (2 : ℚ) * ((samples : ℚ) / ((16000 : ℕ) : ℚ)) =
      ((samples : ℕ) : ℚ) / ((8000 : ℕ) : ℚ) := by
    push_cast
    field_simp
    ring
  rw [h1, Rat.floor_natCast_div_natCast]
  exact (Int.natCast_div samples 8000).symm

/-! ### Concrete oracles used by counterexamples and witnesses -/

/-- Injection oracle: key released at once, `osascript` succeeds. -/
def typeOkEnv : TypeTextEnv :=
  { heldAtPoll := fun _ => false, osReturncodeZero := true }

/-- Injection oracle: key released at once, `osascript` fails (nonzero
return code) — an OS-level injection failure, not a deferral. -/
def osFailEnv : TypeTextEnv :=
  { heldAtPoll := fun _ => false, osReturncodeZero := false }

/-- Injection oracle: key physically held at every poll. -/
def heldEnv : TypeTextEnv :=
  { heldAtPoll := fun _ => true, osReturncodeZero := true }

/-- Step oracle: stream creation raises. -/
def envCreateRaised : StepEnv :=
  { create := .raised, closeCompletes := true, samples := 0,
    inj := fun _ => typeOkEnv }

/-- Step oracle: everything succeeds, two seconds of audio captured. -/
def envCreateOk : StepEnv :=
  { create := .ok, closeCompletes := true, samples := 32000,
    inj := fun _ => typeOkEnv }

/-- Step oracle: the stream close on `COMMAND_UP` deadlocks. -/
def envCloseHangs : StepEnv :=
  { create := .ok, closeCompletes := false, samples := 0,
    inj := fun _ => typeOkEnv }

/-- A `BeginCapture` whose stream creation raises, followed by two
complete successful recordings whose transcriptions finish. -/
def c2Trace : List (StepEnv × Command) :=
  [(envCreateRaised, .commandDown), (envCreateOk, .commandUp),
   (envCreateOk, .commandDown), (envCreateOk, .commandUp),
   (envCreateOk, .chunkDone 1 "hello"),
   (envCreateOk, .commandDown), (envCreateOk, .commandUp),
   (envCreateOk, .chunkDone 2 "world")]

/-! ### Claim theorems -/

/-- C1: For every interleaving of commands processed by the state
machine — in particular `CHUNK_DONE` completions arriving in any
order — the sequence of injected `(id, text)` pairs carries exactly the
ids `0, 1, …, nextChunkToType - 1` in increasing order with nothing
skipped or reordered, and each injected text is the payload of a
`CHUNK_DONE` command of the trace.  Text for chunk `i` is therefore
injected only after text for every chunk `j < i`. -/
theorem injected_texts_follow_chunk_id_order (tr : List (StepEnv × Command)) :
    (injectedPairs (smRun tr).2).map Prod.fst =
      List.range (smRun tr).1.nextChunkToType ∧
    ∀ q ∈ injectedPairs (smRun tr).2,
      Command.chunkDone q.1 q.2 ∈ tr.map Prod.snd := by
  obtain ⟨h1, h2, h3, _⟩ := run_spec tr smInit
  have hz : smInit.nextChunkToType = 0 := rfl
  rw [hz] at h1 h2
  constructor
  · show (injectedPairs (smRunFrom smInit tr).2).map Prod.fst =
      List.range (smRunFrom smInit tr).1.nextChunkToType
    rw [h2, Nat.zero_add, List.range_eq_range']
    exact h1
  · intro q hq
    rcases h3 q hq with h | h
    · simp [smInit] at h
    · exact h

/-- C2 (code bug): after a `BeginCapture` whose stream creation fails,
the chunk-id counter is NOT rolled back (it stands at 1 after the
failed attempt, with `pending_chunks` empty, so no `CHUNK_DONE` will
ever arrive for the consumed id 0), and the in-order flush then waits
forever on that dead id: two subsequent fully successful recordings
complete as chunks 1 and 2, yet nothing is ever injected and
`next_chunk_to_type` stays at 0.  The claim (and the code's own stated
guarantee that chunks always type in recorded order) requires the
sequencing state to be as if the failed `BeginCapture` had never
happened. -/
theorem failed_begin_capture_wedges_flush :
    (smRun (c2Trace.take 2)).1.isRecording = false ∧
    (smRun (c2Trace.take 2)).1.nextChunkToRecord = 1 ∧
    (smRun (c2Trace.take 2)).1.pendingChunks = [] ∧
    injectedPairs (smRun c2Trace).2 = [] ∧
    (smRun c2Trace).1.nextChunkToType = 0 ∧
    (smRun c2Trace).1.pendingChunks = [(2, "world"), (1, "hello")] := by
  decide

/-- C3 (counterexample): on an OS-level injection failure (the
`osascript` subprocess really runs — `osCalled = true` — and exits
nonzero), `type_text` returns `False` and the flush loop does NOT
advance past the chunk: the entry stays in `pending_chunks` and
`next_chunk_to_type` is unchanged, contradicting the claim that the
entry is removed and the counter incremented. -/
theorem injection_failure_not_advanced_cex :
    (type_text osFailEnv "hi").osCalled = true ∧
    (type_text osFailEnv "hi").success = false ∧
    try_type_pending_chunks (fun _ => osFailEnv) 1 0 [(0, "hi")] false =
      { nextChunkToType := 0, pendingChunks := [(0, "hi")], events := [],
        madeProgress := false } := by
  decide

/-- C3 (amended): for every non-empty chunk text on which the injector
reports failure — OS-level injection failure and deferral are
indistinguishable to the caller, both return `False` — the flush
routine does not advance: the entry stays in `pendingChunks`,
`next_chunk_to_type` is unchanged, and the text will be retried on the
next flush-triggering event. -/
theorem injection_failure_keeps_chunk_queued (inj : Nat → TypeTextEnv)
    (fuel next : Nat) (pending : List (Nat × String)) (progress : Bool)
    (t : String) (hl : pcLookup pending next = some t) (ht : t ≠ "")
    (hf : (type_text (inj next) t).success = false) :
    try_type_pending_chunks inj (fuel + 1) next pending progress =
      { nextChunkToType := next, pendingChunks := pending, events := [],
        madeProgress := progress } :=
  flush_break inj fuel next pending progress t hl ht hf

/-- Witness for C3 (amended) at the concrete OS-failure oracle. -/
theorem injection_failure_keeps_chunk_queued_witness :
    try_type_pending_chunks (fun _ => osFailEnv) 5 3 [(3, "hi")] false =
      { nextChunkToType := 3, pendingChunks := [(3, "hi")], events := [],
        madeProgress := false } :=
  injection_failure_keeps_chunk_queued (fun _ => osFailEnv) 4 3 [(3, "hi")] false
    "hi" (by decide) (by decide) (by decide)

/-- C4: whenever the recognizer call of some attempt exceeds its
deadline — no matter how many of the allowed retries remain — the
transcription routine stops immediately: no retry is made, empty text
is returned, and exactly one user-visible notification (the timeout
notification, and no failure notification) is raised. -/
theorem transcription_timeout_no_retry (att : Nat → AttemptOutcome)
    (k samples : Nat) (hk : k ≤ MAX_TRANSCRIPTION_RETRIES)
    (herr : ∀ j, j < k → att j = AttemptOutcome.err)
    (ht : att k = AttemptOutcome.timeout) (hs : samples ≠ 0) :
    transcribe_recorded_audio att samples =
      { text := "", recognizerCalls := k + 1, timeoutNotifs := 1, failNotifs := 0,
        deadline := timeout_seconds samples } := by
  have h := attempt_loop_timeout att k 0 MAX_TRANSCRIPTION_RETRIES hk
    (fun j _ h2 => herr j (by omega)) (by simpa using ht)
  simp [transcribe_recorded_audio, hs, h]

/-- Witness for C4: first attempt times out on a one-second buffer. -/
theorem transcription_timeout_no_retry_witness :
    transcribe_recorded_audio (fun _ => AttemptOutcome.timeout) 16000 =
      { text := "", recognizerCalls := 1, timeoutNotifs := 1, failNotifs := 0,
        deadline := timeout_seconds 16000 } :=
  transcription_timeout_no_retry (fun _ => AttemptOutcome.timeout) 0 16000
    (by decide) (fun j h => absurd h (Nat.not_lt_zero j)) rfl (by decide)

/-- C5: a stream close that times out returns `False` and increments
the leak counter by exactly one (a close that completes leaves it
unchanged); when the counter reaches the hard threshold
`MAX_ABANDONED_STREAMS = 10` the shutdown notification fires, the
single-instance lock is released and the process quit is requested;
and the `COMMAND_UP` handler always discards the stream handle. -/
theorem leak_counter_and_forced_shutdown (a b : Nat)
    (hb : MAX_ABANDONED_STREAMS ≤ b + 1)
    (env : StepEnv) (s : SMState) (hrec : s.isRecording = true) :
    (close_stream_with_timeout false a).abandoned = a + 1 ∧
    (close_stream_with_timeout false a).returnedTrue = false ∧
    (close_stream_with_timeout true a).abandoned = a ∧
    (close_stream_with_timeout false b).shutdownNotif = true ∧
    (close_stream_with_timeout false b).lockReleased = true ∧
    (close_stream_with_timeout false b).quitCalled = true ∧
    (state_manager_step env s Command.commandUp).1.audioStream = false := by
  refine ⟨?_, ?_, ?_, ?_, ?_, ?_, ?_⟩ <;>
    simp [close_stream_with_timeout, state_manager_step, hrec, hb]

/-- Witness for C5 at the tenth leak (counter 9 before the call). -/
theorem leak_counter_and_forced_shutdown_witness :
    (close_stream_with_timeout false 0).abandoned = 1 ∧
    (close_stream_with_timeout false 0).returnedTrue = false ∧
    (close_stream_with_timeout true 0).abandoned = 0 ∧
    (close_stream_with_timeout false 9).shutdownNotif = true ∧
    (close_stream_with_timeout false 9).lockReleased = true ∧
    (close_stream_with_timeout false 9).quitCalled = true ∧
    (state_manager_step envCloseHangs { smInit with isRecording := true }
        Command.commandUp).1.audioStream = false :=
  leak_counter_and_forced_shutdown 0 9 (by decide) envCloseHangs
    { smInit with isRecording := true } rfl

/-- C6 (counterexample): the code's deadline is
`max(120, int(2 * duration))` with `int` truncating, not
`max(120, 2 * duration)`: a 60.25-second buffer (964000 samples) gets
deadline 120, while the spec's formula yields 120.5. -/
theorem deadline_formula_cex :
    ((timeout_seconds 964000 : ℤ) : ℚ) ≠ spec_deadline 964000 ∧
    timeout_seconds 964000 = 120 ∧
    spec_deadline 964000 = 241 / 2 := by
  have h1 : timeout_seconds 964000 = 120 := by
    rw [timeout_seconds_eq]
    norm_num [TRANSCRIPTION_TIMEOUT]
  have h2 : spec_deadline 964000 = 241 / 2 := by
    unfold spec_deadline duration_seconds SAMPLE_RATE TRANSCRIPTION_TIMEOUT
    have hd : (2 : ℚ) * (((964000 : ℕ) : ℚ) / ((16000 : ℕ) : ℚ)) = 241 / 2 := by
      push_cast
      norm_num
    rw [hd, max_eq_right]
    push_cast
    norm_num
  refine ⟨?_, h1, h2⟩
  rw [h1, h2]
  norm_num

/-- C6 (amended): for every recorded audio buffer the transcription
deadline equals `max(fixedFloor, ⌊2 × audioDurationSeconds⌋)` with
`fixedFloor = 120` — the doubled duration truncated to whole seconds,
which over the sample count is `samples / 8000` in integer division;
in particular a 2-second recording (32000 samples) yields exactly one
dispatch whose deadline is exactly the fixed floor. -/
theorem deadline_floored_double_duration (att : Nat → AttemptOutcome)
    (samples : Nat) (hs : samples ≠ 0) :
    (transcribe_recorded_audio att samples).deadline =
      max (TRANSCRIPTION_TIMEOUT : ℤ) ((samples / 8000 : ℕ) : ℤ) ∧
    duration_seconds (2 * SAMPLE_RATE) = 2 ∧
    (transcribe_recorded_audio att (2 * SAMPLE_RATE)).deadline =
      (TRANSCRIPTION_TIMEOUT : ℤ) ∧
    (transcribe_recorded_audio (fun _ => AttemptOutcome.ok "ok")
        (2 * SAMPLE_RATE)).recognizerCalls = 1 := by
  refine ⟨?_, ?_, ?_, ?_⟩
  · simp [transcribe_recorded_audio, hs, timeout_seconds_eq]
  · unfold duration_seconds SAMPLE_RATE
    norm_num
  · have h32 : (2 * SAMPLE_RATE : Nat) ≠ 0 := by decide
    simp only [transcribe_recorded_audio, h32, if_false, ite_false]
    rw [timeout_seconds_eq]
    decide
  · decide

/-- Witness for C6 (amended) at a one-second buffer. -/
theorem deadline_floored_double_duration_witness :
    (transcribe_recorded_audio (fun _ => AttemptOutcome.ok "ok") 16000).deadline =
      max (TRANSCRIPTION_TIMEOUT : ℤ) ((16000 / 8000 : ℕ) : ℤ) ∧
    duration_seconds (2 * SAMPLE_RATE) = 2 ∧
    (transcribe_recorded_audio (fun _ => AttemptOutcome.ok "ok")
        (2 * SAMPLE_RATE)).deadline = (TRANSCRIPTION_TIMEOUT : ℤ) ∧
    (transcribe_recorded_audio (fun _ => AttemptOutcome.ok "ok")
        (2 * SAMPLE_RATE)).recognizerCalls = 1 :=
  deadline_floored_double_duration (fun _ => AttemptOutcome.ok "ok") 16000
    (by decide)

/-- C7: a chunk finalized with zero captured samples never reaches the
recognizer (`recognizerCalls = 0`), completes with empty text, posts
its `CHUNK_DONE` with empty text, and the flush then advances
`next_chunk_to_type` past it as a no-op without launching any
injection subprocess (`osCalled = false` in the flush event). -/
theorem zero_sample_chunk_skips_recognizer (att : Nat → AttemptOutcome)
    (inj : Nat → TypeTextEnv) (k cid : Nat) (progress : Bool) :
    transcribe_recorded_audio att 0 =
      { text := "", recognizerCalls := 0, timeoutNotifs := 0, failNotifs := 0,
        deadline := 0 } ∧
    do_transcription att 0 cid false = [Command.chunkDone cid ""] ∧
    try_type_pending_chunks inj 1 k [(k, "")] progress =
      { nextChunkToType := k + 1, pendingChunks := [],
        events := [Event.flushed k "" false], madeProgress := true } := by
  refine ⟨rfl, rfl, ?_⟩
  have hl : pcLookup [(k, "")] k = some "" := by simp [pcLookup]
  rw [flush_eq_empty inj 0 k [(k, "")] progress hl]
  simp [try_type_pending_chunks, pcErase]

/-- C8: before injecting non-empty text the injector polls the physical
key state at most `max_wait_iterations = 20` times (10 ms sleep after
each positive poll, a 200 ms bound); if the key is still held at every
poll it returns a deferral with no injection subprocess and without
ever setting `typing_in_progress`, and the flush loop leaves the chunk
queued with `next_chunk_to_type` unchanged. -/
theorem deferral_bounded_polls_no_flag (env env2 : TypeTextEnv)
    (text text2 : String) (htext : text ≠ "")
    (hheld : ∀ i, i < max_wait_iterations → env.heldAtPoll i = true)
    (inj : Nat → TypeTextEnv) (fuel next : Nat)
    (pending : List (Nat × String)) (progress : Bool) (t : String)
    (hl : pcLookup pending next = some t) (ht : t ≠ "")
    (hinj : ∀ i, i < max_wait_iterations → (inj next).heldAtPoll i = true) :
    type_text env text =
      { success := false, osCalled := false, flagWasSet := false,
        polls := max_wait_iterations } ∧
    (type_text env2 text2).polls ≤ max_wait_iterations ∧
    try_type_pending_chunks inj (fuel + 1) next pending progress =
      { nextChunkToType := next, pendingChunks := pending, events := [],
        madeProgress := progress } := by
  refine ⟨type_text_deferred env text htext hheld,
    type_text_polls_le env2 text2, ?_⟩
  have hf : (type_text (inj next) t).success = false := by
    rw [type_text_deferred (inj next) t ht hinj]
  exact flush_break inj fuel next pending progress t hl ht hf

/-- Witness for C8 at the always-held oracle. -/
theorem deferral_bounded_polls_no_flag_witness :
    type_text heldEnv "a" =
      { success := false, osCalled := false, flagWasSet := false,
        polls := max_wait_iterations } ∧
    (type_text osFailEnv "xyz").polls ≤ max_wait_iterations ∧
    try_type_pending_chunks (fun _ => heldEnv) 1 0 [(0, "a")] false =
      { nextChunkToType := 0, pendingChunks := [(0, "a")], events := [],
        madeProgress := false } :=
  deferral_bounded_polls_no_flag heldEnv osFailEnv "a" "xyz" (by decide)
    (fun _ _ => rfl) (fun _ => heldEnv) 0 0 [(0, "a")] false "a" rfl (by decide)
    (fun _ _ => rfl)

/-- C9: the state-machine loop's error handler resets `is_recording`
to false and `current_chunk_id` to none while leaving `pending_chunks`,
both sequencing counters and the process-wide failure counters
untouched — completed-but-untyped transcripts are never discarded by an
error. -/
theorem error_reset_preserves_pending (s : SMState) :
    (state_manager_on_error s).pendingChunks = s.pendingChunks ∧
    (state_manager_on_error s).nextChunkToType = s.nextChunkToType ∧
    (state_manager_on_error s).nextChunkToRecord = s.nextChunkToRecord ∧
    (state_manager_on_error s).abandonedStreams = s.abandonedStreams ∧
    (state_manager_on_error s).creationFailures = s.creationFailures ∧
    (state_manager_on_error s).isRecording = false ∧
    (state_manager_on_error s).currentChunkId = none :=
  ⟨rfl, rfl, rfl, rfl, rfl, rfl, rfl⟩

/-- C10: the transcription thread body posts exactly one `CHUNK_DONE`
command carrying the dispatched chunk's id, whatever the transcription
routine does — and when it raises, the posted `CHUNK_DONE` carries
empty text — so the in-order flush never waits forever on a chunk that
was dispatched. -/
theorem dispatch_posts_exactly_one_chunk_done (att : Nat → AttemptOutcome)
    (samples cid : Nat) (raised : Bool) :
    (do_transcription att samples cid raised).length = 1 ∧
    (∃ t, do_transcription att samples cid raised = [Command.chunkDone cid t]) ∧
    do_transcription att samples cid true = [Command.chunkDone cid ""] := by
  cases raised <;> exact ⟨rfl, ⟨_, rfl⟩, rfl⟩

end Dictation
